import Mathlib

/-!
Verification of the trigger-expression parser of the openhab-helper-libraries
JavaScript core modules.  The embedding below translates, case by case, the
`when` decorator of the triggers module (the trigger-expression DSL: tokenizer,
semantic validation against the item/thing/channel registries, and the trigger
builders it dispatches to) together with the `validate_uid` sanitizer of the
utils module.  Host collaborators (item registry, thing registry, channel
lookup, cron validation, java.util.UUID) are modelled as an explicit
environment `Env`; everything else follows the JavaScript source line by line.
-/

namespace OhWhen

/-! ### validate_uid (utils module)

The JavaScript source:

    context.validate_uid = function (uid) {
        if (!uid) {
            uid = UUID.randomUUID().toString();
        } else {
            while (uid.match(/[^A-Za-z0-9_-]/)) {
                uid = uid.replace(/[^A-Za-z0-9_-]/, "_");
            }
            uid = uid + UUID.randomUUID().toString();
        }
        if (!uid.match(/^[A-Za-z0-9]/)) {
            uid = "javascript" + uid;
        }
        while (uid.match(/__+/)) {
            uid = uid.replace(/__+/, "_");
        }
        return uid;
    };

`UUID.randomUUID().toString()` is a host call; it is modelled as the explicit
argument `uuid` of `validate_uid`.  Callers thread an index into `Env.uuids`
for each host call, in call order.
-/

/-- isUidChar c is true exactly when c is in the character class [A-Za-z0-9_-]. -/
def isUidChar (c : Char) : Bool :=
  ('A' ≤ c && c ≤ 'Z') || ('a' ≤ c && c ≤ 'z') || ('0' ≤ c && c ≤ '9') ||
    c == '_' || c == '-'

/-- isAlnumChar c is true exactly when c is in the character class [A-Za-z0-9]. -/
def isAlnumChar (c : Char) : Bool :=
  ('A' ≤ c && c ≤ 'Z') || ('a' ≤ c && c ≤ 'z') || ('0' ≤ c && c ≤ '9')

/-- One JavaScript step uid.replace of the first character outside
[A-Za-z0-9_-] with an underscore. -/
def replaceFirstInvalid : List Char → List Char
  | [] => []
  | c :: cs => if isUidChar c then c :: replaceFirstInvalid cs else '_' :: cs

/-- The while loop replacing invalid characters, with explicit fuel.  Each
iteration removes one invalid character, so any fuel at least the count of
invalid characters computes the loop's fixpoint. -/
def sanitizeLoop : Nat → List Char → List Char
  | 0, l => l
  | fuel + 1, l =>
    if l.any (fun c => !isUidChar c) then sanitizeLoop fuel (replaceFirstInvalid l)
    else l

/-- The first while loop of validate_uid: replace every character outside
[A-Za-z0-9_-] with an underscore (fuel = number of invalid characters). -/
def sanitizeChars (l : List Char) : List Char :=
  sanitizeLoop (l.countP (fun c => !isUidChar c)) l

/-- hasDoubleUnderscore l is true exactly when l matches the regex __+ ,
that is, contains two adjacent underscores. -/
def hasDoubleUnderscore : List Char → Bool
  | [] => false
  | [_] => false
  | c1 :: c2 :: rest => (c1 == '_' && c2 == '_') || hasDoubleUnderscore (c2 :: rest)

/-- One JavaScript step uid.replace of the first (greedy, maximal) run of two
or more underscores with a single underscore. -/
def replaceFirstDoubleUnderscore : List Char → List Char
  | [] => []
  | [c] => [c]
  | c1 :: c2 :: rest =>
    if c1 == '_' && c2 == '_' then '_' :: rest.dropWhile (fun c => c == '_')
    else c1 :: replaceFirstDoubleUnderscore (c2 :: rest)

/-- The while loop collapsing underscore runs, with explicit fuel.  Each
iteration shortens the list, so fuel = length computes the loop's fixpoint. -/
def collapseLoop : Nat → List Char → List Char
  | 0, l => l
  | fuel + 1, l =>
    if hasDoubleUnderscore l then collapseLoop fuel (replaceFirstDoubleUnderscore l)
    else l

/-- The second while loop of validate_uid: collapse every run of underscores
to a single underscore. -/
def collapseChars (l : List Char) : List Char :=
  collapseLoop l.length l

/-- startsAlnum l is true exactly when l matches the regex ^[A-Za-z0-9]. -/
def startsAlnum : List Char → Bool
  | [] => false
  | c :: _ => isAlnumChar c

/-- The first statement of validate_uid: a falsy uid (null, undefined or the
empty string, modelled by the empty string) becomes the fresh uuid, any other
uid is sanitized and the fresh uuid appended. -/
def uidStep1 (uuid uid : String) : List Char :=
  if uid.data.isEmpty then uuid.data
  else sanitizeChars uid.data ++ uuid.data

/-- The second statement of validate_uid: prefix the fixed marker when the id
does not match ^[A-Za-z0-9]. -/
def uidStep2 (l : List Char) : List Char :=
  if startsAlnum l then l else "javascript".data ++ l

/-- validate_uid of the utils module.  `uuid` models the string the host call
UUID.randomUUID().toString() returns during this invocation. -/
def validate_uid (uuid : String) (uid : String) : String :=
  String.mk (collapseChars (uidStep2 (uidStep1 uuid uid)))

/-- The well-formed-id shape: starts with a letter or digit, has no character
outside [A-Za-z0-9_-], and has no two adjacent underscores. -/
def uidShapeOK (s : String) : Prop :=
  startsAlnum s.data = true ∧ (∀ c ∈ s.data, isUidChar c = true) ∧
    hasDoubleUnderscore s.data = false

/-! ### The data model of the trigger module

TriggerSpec mirrors the module instance TriggerBuilder.create().withId(id)
.withTypeUID(type).withConfiguration(cfg).build(): the configuration keeps the
keys in put order.  Func mirrors the decorated callback object: its triggers
attribute (absent until the first add_trigger, then a list that may hold the
null marker) plus the other attributes the decorators never touch. -/

/-- A configuration value: the module stores strings, the number 20 for the
start level, and null (for a JavaScript undefined put into the map). -/
inductive CValue
  | str (s : String)
  | num (n : Nat)
  | nullv
deriving DecidableEq

/-- A built trigger module instance: id, type UID and configuration in put
order. -/
structure TriggerSpec where
  id : String
  type_code : String
  configuration : List (String × CValue)
deriving DecidableEq

/-- The decorated callback object: the triggers attribute is absent (none)
until the first add_trigger call; a list entry none is the null poison
marker.  name and description stand for every other attribute of the
callback, which the trigger builders never touch. -/
structure Func where
  triggers : Option (List (Option TriggerSpec))
  name : String
  description : String
deriving DecidableEq

/-- An item of the host item registry, with the host answers the parser
consults: getMembers() and getAllMembers() for groups, and whether
TypeParser.parseState / TypeParser.parseCommand on the item's accepted types
return non-null for a given string. -/
structure RegItem where
  name : String
  type : String
  members : List String
  allMembers : List String
  stateParses : String → Bool
  commandParses : String → Bool

/-- The kind of a channel in the thing registry. -/
inductive ChannelKind
  | trigger
  | state
deriving DecidableEq

/-- The host environment of one script: the item registry, the thing registry
(things.get on a ThingUID is non-null), channel lookup (things.getChannel),
the quartz cron validator, and the stream of UUID.randomUUID().toString()
results, indexed by host-call order. -/
structure Env where
  items : List RegItem
  thingExists : String → Bool
  getChannel : String → Option ChannelKind
  isValidCron : String → Bool
  uuids : Nat → String

/-- itemRegistry.getItem(name): the first registry item of that name, none
when the lookup would throw ItemNotFoundException.  A null name (trigger
target never filled) also throws. -/
def getItem? (env : Env) (o : Option String) : Option RegItem :=
  match o with
  | some nm => env.items.find? (fun i => i.name == nm)
  | none => none

/-- The five parse slots of the when decorator, each null until filled. -/
structure ParseState where
  target_type : Option String
  trigger_target : Option String
  trigger_type : Option String
  old_state : Option String
  new_state : Option String
deriving DecidableEq

/-- JavaScript string conversion of a possibly-null variable, as string
concatenation applies it inside the error messages. -/
def jsStr : Option String → String
  | some s => s
  | none => "null"

/-- JavaScript truthiness of a possibly-null string (null, undefined and the
empty string are falsy). -/
def jsTruthyStr : Option String → Bool
  | some s => !s.isEmpty
  | none => false

/-- JavaScript `x || null`: an empty string collapses to null. -/
def jsOrNull : Option String → Option String
  | some s => if s.isEmpty then none else some s
  | none => none

/-! ### The tokenizer (expr.split and the token helpers) -/

/-- expr.split on a single space, JavaScript semantics: the empty string
yields one empty token and adjacent spaces yield empty tokens. -/
def splitSpaceAux : List Char → List Char → List String
  | [], acc => [String.mk acc]
  | c :: cs, acc =>
    if c = ' ' then String.mk acc :: splitSpaceAux cs []
    else splitSpaceAux cs (acc ++ [c])

/-- expr.split of the when decorator: `input_list = expr.split(" ")`. -/
def splitSpaces (s : String) : List String :=
  splitSpaceAux s.data []

/-- input_list.slice(0, 2).join(" "): the first two tokens joined by a
space (or the single token, or the empty string). -/
def take2joined : List String → String
  | [] => ""
  | [a] => a
  | a :: b :: _ => a ++ " " ++ b

/-- trigger_type.replace(" ", "-"): JavaScript String.replace with a string
pattern rewrites only the first occurrence. -/
def replaceFirstSpace : List Char → List Char
  | [] => []
  | c :: cs => if c = ' ' then '-' :: cs else c :: replaceFirstSpace cs

/-- input_list.join(" "). -/
def joinSpace : List String → String
  | [] => ""
  | [a] => a
  | a :: rest => a ++ " " ++ joinSpace rest

/-! ### The grammar state machine of `when`

The while loop of the source fills the five slots strictly in the order
target_type, trigger_target, trigger_type, then the from/to qualifiers: a
slot, once non-null, is never reset, so the loop is the sequential
composition of four phases, each guarded by the loop condition that tokens
remain.  The one iteration that consumes no token (an Item/Thing target with
a single token left sets trigger_target to the empty string) hands the same
token list to the trigger_type phase, exactly as the next loop iteration
would. -/

/-- The target_type phase: two tokens for "Member of"/"Descendent of", else
one.  Returns the slot value and the remaining tokens. -/
def ttPhase (tokens : List String) : String × List String :=
  match tokens with
  | [] => ("", [])
  | tok :: rest =>
    if take2joined tokens == "Member of" || take2joined tokens == "Descendent of" then
      (take2joined tokens, rest.drop 1)
    else (tok, rest)

/-- The trigger_target phase.  For System with more than one token left,
"shuts down" is consumed as two tokens; for Item/Thing with exactly one token
left the target is the empty string and nothing is consumed; otherwise one
token. -/
def tgtPhase (target_type : String) (tokens : List String) : String × List String :=
  match tokens with
  | [] => ("", [])
  | tok :: rest =>
    if target_type == "System" && tokens.length > 1 then
      if take2joined tokens == "shuts down" then ("shuts down", rest.drop 1)
      else (tok, rest)
    else if (target_type == "Item" || target_type == "Thing") && tokens.length == 1 then
      ("", tokens)
    else (tok, rest)

/-- The trigger_type phase: two-token phrases gated by target_type, then the
single-token keywords, then the cron branch (all remaining tokens) when the
target is the literal "cron", then the lifecycle keywords; anything else is a
grammar error.  The messages are the RangeError messages of the source (the
"received update" branch interpolates the still-null trigger_type, so its
message reads target_type 'null'). -/
def tyPhase (env : Env) (expr : String) (target_type trigger_target : String)
    (tokens : List String) : Except String (String × List String) :=
  match tokens with
  | [] => .ok ("", [])
  | tok :: rest =>
    if take2joined tokens == "received update" then
      if target_type == "Item" || target_type == "Thing" ||
          target_type == "Member of" || target_type == "Descendent of" then
        .ok ("received update", rest.drop 1)
      else
        .error ("when: '" ++ expr ++ "' could not be parsed. "
          ++ "'received update' is invalid for target_type '" ++ "null" ++ "'")
    else if take2joined tokens == "received command" then
      if target_type == "Item" || target_type == "Member of" ||
          target_type == "Descendent of" then
        .ok ("received command", rest.drop 1)
      else
        .error ("when: '" ++ expr ++ "' could not be parsed. "
          ++ "'received command' is invalid for target_type '" ++ target_type ++ "'")
    else if tok == "changed" then
      if target_type == "Item" || target_type == "Thing" ||
          target_type == "Member of" || target_type == "Descendent of" then
        .ok ("changed", rest)
      else
        .error ("when: '" ++ expr ++ "' could not be parsed. "
          ++ "'changed' is invalid for target_type '" ++ target_type ++ "'")
    else if tok == "triggered" then
      if target_type == "Channel" then
        .ok ("triggered", rest)
      else
        .error ("when: '" ++ expr ++ "' could not be parsed. "
          ++ "'triggered' is invalid for target_type '" ++ target_type ++ "'")
    else if trigger_target == "cron" then
      if target_type == "Time" then
        if env.isValidCron (joinSpace tokens) then
          .ok (joinSpace tokens, [])
        else
          .error ("when: '" ++ expr ++ "' could not be parsed. "
            ++ "'" ++ joinSpace tokens ++ "' is not a valid cron expression. See "
            ++ "http://www.quartz-scheduler.org/documentation/quartz-2.1.x/tutorials/tutorial-lesson-06")
      else
        .error ("when: '" ++ expr ++ "' could not be parsed. "
          ++ "'cron' is invalid for target_type '" ++ target_type ++ "'")
    else if tok == "added" || tok == "removed" || tok == "modified" then
      if target_type == "Item" || target_type == "Thing" then
        .ok (tok, rest)
      else
        .error ("when: '" ++ expr ++ "' could not be parsed. "
          ++ "'" ++ tok ++ "' is invalid for target_type '" ++ target_type ++ "'")
    else
      .error ("when: '" ++ expr ++ "' could not be parsed because the trigger_type "
        ++ "'" ++ tok ++ "' is invalid")

/-- The qualifier phase, one loop iteration per constructor level: from/to
fill old_state/new_state when the trigger type is changed, a bare token fills
new_state for received update/received command or a Channel target, and any
leftover tokens raise the grammar error naming them. -/
def qualLoop (env : Env) (expr : String) (target_type trigger_target trigger_type : String) :
    List String → Option String → Option String →
      Except String (Option String × Option String)
  | [], os, ns => .ok (os, ns)
  | tok :: rest, os, ns =>
    if os.isNone && trigger_type == "changed" && tok == "from" then
      match rest with
      | [] => .ok (some "", ns)
      | s :: rest2 =>
        qualLoop env expr target_type trigger_target trigger_type rest2 (some s) ns
    else if ns.isNone && trigger_type == "changed" && tok == "to" then
      match rest with
      | [] => .ok (os, some "")
      | s :: rest2 =>
        qualLoop env expr target_type trigger_target trigger_type rest2 os (some s)
    else if ns.isNone &&
        (trigger_type == "received update" || trigger_type == "received command") then
      qualLoop env expr target_type trigger_target trigger_type rest os (some tok)
    else if ns.isNone && target_type == "Channel" then
      qualLoop env expr target_type trigger_target trigger_type rest os (some tok)
    else
      .error ("when: '" ++ expr ++ "' could not be parsed. '"
        ++ joinSpace (tok :: rest) ++ "' is invalid for '"
        ++ target_type ++ " " ++ trigger_target ++ " " ++ trigger_type ++ "'")

/-- The whole grammar loop on a token list of length at least two (the
single-word shortcut bypasses it). -/
def runGrammar (env : Env) (expr : String) (tokens : List String) :
    Except String ParseState :=
  match tokens with
  | [] => .ok ⟨none, none, none, none, none⟩
  | _ :: _ =>
    let p1 := ttPhase tokens
    match p1.2 with
    | [] => .ok ⟨some p1.1, none, none, none, none⟩
    | _ :: _ =>
      let p2 := tgtPhase p1.1 p1.2
      match p2.2 with
      | [] => .ok ⟨some p1.1, some p2.1, none, none, none⟩
      | _ :: _ => do
        let p3 ← tyPhase env expr p1.1 p2.1 p2.2
        let p4 ← qualLoop env expr p1.1 p2.1 p3.1 p3.2 none none
        .ok ⟨some p1.1, some p2.1, some p3.1, p4.1, p4.2⟩

/-! ### The semantic validation chain of `when`

The source validates with one else-if chain whose branches all throw
RangeError; a condition that is false falls through to the next check.  The
chain below errors at the first true condition and returns unit otherwise.
A RangeError is represented by .range msg (caught at the end of `when`); any
other host exception (ItemNotFoundException from itemRegistry.getItem, a null
dereference) is .host and is re-raised by `when` as a generic failure. -/

/-- The two ways the body of `when` can fail. -/
inductive WhenErr
  | range (msg : String)
  | host
deriving DecidableEq

/-- Decidable equality of Except values, so that the concrete examples below
can be settled by evaluation. -/
instance {ε α : Type} [DecidableEq ε] [DecidableEq α] :
    DecidableEq (Except ε α) := fun a b => by
  cases a with
  | ok x =>
    cases b with
    | ok y => exact decidable_of_iff (x = y) (by simp)
    | error y => exact isFalse (fun h => Except.noConfusion h)
  | error x =>
    cases b with
    | ok y => exact isFalse (fun h => Except.noConfusion h)
    | error y => exact decidable_of_iff (x = y) (by simp)

/-- The lifecycle check `~["added", "removed", "modified"].indexOf(trigger_type)`
(indexOf of null is -1, so a null trigger_type is not lifecycle). -/
def isLifecycle (ty : Option String) : Bool :=
  ty == some "added" || ty == some "removed" || ty == some "modified"

/-- The registry-existence condition `itemRegistry.getItems(trigger_target) === []`
of the source.  In JavaScript, === against a fresh array literal compares
object identity and is false for every value, so this condition never holds:
the check is dead code. -/
def jsGetItemsEqArrayLiteral : Bool := false

/-- The condition `ThingStatus.old_state === undefined` (and its new_state
twin) of the source.  The property access uses the literal member name
old_state on the ThingStatus class, not the value of the variable, and no
such member exists, so the access yields undefined for every state value:
the condition always holds. -/
def jsThingStatusMember (_propName : String) : Option Unit := none

/-- The validation chain, in source order. -/
def validateState (env : Env) (expr : String) (st : ParseState) : Except WhenErr Unit :=
  if st.target_type == none
      || !(["Item", "Member of", "Descendent of", "Thing", "Channel", "System",
            "Time", "Item Event"].contains (jsStr st.target_type)) then
    .error (.range ("when: '" ++ expr ++ "' could not be parsed. "
      ++ "target_type is missing or invalid. Valid target_type values are: "
      ++ "Item, Member of, Descendent of, Thing, Channel, System, and Time."))
  else if st.target_type != some "System" && !(isLifecycle st.trigger_type)
      && st.trigger_type == none then
    .error (.range ("when: '" ++ expr
      ++ "' could not be parsed because trigger_type cannot be null"))
  else if ["Item", "Member of", "Descendent of"].contains (jsStr st.target_type)
      && !(isLifecycle st.trigger_type) && jsGetItemsEqArrayLiteral then
    .error (.range ("when: '" ++ expr ++ "' could not be parsed because Item '"
      ++ jsStr st.trigger_target ++ "' is not in the ItemRegistry"))
  else if ["Member of", "Descendent of"].contains (jsStr st.target_type) then
    match getItem? env st.trigger_target with
    | none => .error .host
    | some item =>
      if item.type != "Group" then
        .error (.range ("when: '" ++ expr ++ "' could not be parsed because '"
          ++ jsStr st.target_type ++ "' was specified, but '"
          ++ jsStr st.trigger_target ++ "' is not a group"))
      else validateState2 env expr st
  else validateState2 env expr st
where
  /-- checks 5 to 7: the state and command literals of an Item expression. -/
  validateState2 (env : Env) (expr : String) (st : ParseState) : Except WhenErr Unit :=
    if st.target_type == some "Item" && !(isLifecycle st.trigger_type)
        && st.old_state.isSome && st.trigger_type == some "changed" then
      match getItem? env st.trigger_target with
      | none => .error .host
      | some item =>
        if !(item.stateParses (jsStr st.old_state)) then
          .error (.range ("when: '" ++ expr ++ "' could not be parsed because '"
            ++ jsStr st.old_state ++ "' is not a valid state for '"
            ++ jsStr st.trigger_target ++ "'"))
        else validateState3 env expr st
    else validateState3 env expr st
  validateState3 (env : Env) (expr : String) (st : ParseState) : Except WhenErr Unit :=
    if st.target_type == some "Item" && !(isLifecycle st.trigger_type)
        && st.new_state.isSome
        && (st.trigger_type == some "changed" || st.trigger_type == some "received update") then
      match getItem? env st.trigger_target with
      | none => .error .host
      | some item =>
        if !(item.stateParses (jsStr st.new_state)) then
          .error (.range ("when: '" ++ expr ++ "' could not be parsed because '"
            ++ jsStr st.new_state ++ "' is not a valid state for '"
            ++ jsStr st.trigger_target ++ "'"))
        else validateState4 env expr st
    else validateState4 env expr st
  /-- check 7 keeps the source's inverted comparison: it raises when
  TypeParser.parseCommand returns NON-null, that is, when the command is
  valid. -/
  validateState4 (env : Env) (expr : String) (st : ParseState) : Except WhenErr Unit :=
    if st.target_type == some "Item" && !(isLifecycle st.trigger_type)
        && st.new_state.isSome && st.trigger_type == some "received command" then
      match getItem? env st.trigger_target with
      | none => .error .host
      | some item =>
        if item.commandParses (jsStr st.new_state) then
          .error (.range ("when: '" ++ expr ++ "' could not be parsed because '"
            ++ jsStr st.new_state ++ "' is not a valid command for '"
            ++ jsStr st.trigger_target ++ "'"))
        else validateState5 env expr st
    else validateState5 env expr st
  validateState5 (env : Env) (expr : String) (st : ParseState) : Except WhenErr Unit :=
    if st.target_type == some "Thing" && !(isLifecycle st.trigger_type)
        && !(env.thingExists (jsStr st.trigger_target)) then
      .error (.range ("when: '" ++ expr ++ "' could not be parsed because Thing '"
        ++ jsStr st.trigger_target ++ "' is not in the ThingRegistry"))
    else if st.target_type == some "Thing" && !(isLifecycle st.trigger_type)
        && st.old_state.isSome && (jsThingStatusMember "old_state").isNone then
      .error (.range ("when: '" ++ jsStr st.old_state ++ "' is not a valid Thing status"))
    else if st.target_type == some "Thing" && !(isLifecycle st.trigger_type)
        && st.new_state.isSome && (jsThingStatusMember "new_state").isNone then
      .error (.range ("when: '" ++ jsStr st.new_state ++ "' is not a valid Thing status"))
    else if st.target_type == some "Channel"
        && env.getChannel (jsStr st.trigger_target) == none then
      .error (.range ("when: '" ++ expr ++ "' could not be parsed because Channel '"
        ++ jsStr st.trigger_target ++ "' does not exist"))
    else if st.target_type == some "Channel" then
      match env.getChannel (jsStr st.trigger_target) with
      | none => .error .host
      | some kind =>
        if kind != ChannelKind.trigger then
          .error (.range ("when: '" ++ expr ++ "' could not be parsed because '"
            ++ jsStr st.trigger_target ++ "' is not a trigger Channel"))
        else validateState6 env expr st
    else validateState6 env expr st
  validateState6 (_env : Env) (expr : String) (st : ParseState) : Except WhenErr Unit :=
    if st.target_type == some "System" && st.trigger_target != some "started" then
      .error (.range ("when: '" ++ expr ++ "' could not be parsed. trigger_target '"
        ++ jsStr st.trigger_target ++ "' is invalid for target_type 'System'. "
        ++ "The only valid trigger_type value is 'started'"))
    else .ok ()

/-! ### The low-level trigger builders

Each builder does one TriggerBuilder.create().withId(validate_uid(name))...
call: it consumes one uuid from the stream (index n) and produces the built
module instance.  A configuration key is put only when the corresponding
argument is not null, in the put order of the source. -/

/-- core.ItemStateUpdateTrigger. -/
def ItemStateUpdateTrigger (env : Env) (item_name : String) (state : Option String)
    (trigger_name : String) (n : Nat) : TriggerSpec × Nat :=
  (⟨validate_uid (env.uuids n) trigger_name, "core.ItemStateUpdateTrigger",
    [("itemName", CValue.str item_name)]
      ++ (match state with | some s => [("state", CValue.str s)] | none => [])⟩,
   n + 1)

/-- core.ItemStateChangeTrigger. -/
def ItemStateChangeTrigger (env : Env) (item_name : String)
    (previous_state state : Option String) (trigger_name : String) (n : Nat) :
    TriggerSpec × Nat :=
  (⟨validate_uid (env.uuids n) trigger_name, "core.ItemStateChangeTrigger",
    [("itemName", CValue.str item_name)]
      ++ (match previous_state with
          | some s => [("previousState", CValue.str s)] | none => [])
      ++ (match state with | some s => [("state", CValue.str s)] | none => [])⟩,
   n + 1)

/-- core.ItemCommandTrigger. -/
def ItemCommandTrigger (env : Env) (item_name : String) (command : Option String)
    (trigger_name : String) (n : Nat) : TriggerSpec × Nat :=
  (⟨validate_uid (env.uuids n) trigger_name, "core.ItemCommandTrigger",
    [("itemName", CValue.str item_name)]
      ++ (match command with | some s => [("command", CValue.str s)] | none => [])⟩,
   n + 1)

/-- core.ThingStatusUpdateTrigger. -/
def ThingStatusUpdateTrigger (env : Env) (thing_uid : String) (status : Option String)
    (trigger_name : String) (n : Nat) : TriggerSpec × Nat :=
  (⟨validate_uid (env.uuids n) trigger_name, "core.ThingStatusUpdateTrigger",
    [("thingUID", CValue.str thing_uid)]
      ++ (match status with | some s => [("status", CValue.str s)] | none => [])⟩,
   n + 1)

/-- core.ThingStatusChangeTrigger. -/
def ThingStatusChangeTrigger (env : Env) (thing_uid : String)
    (previous_status status : Option String) (trigger_name : String) (n : Nat) :
    TriggerSpec × Nat :=
  (⟨validate_uid (env.uuids n) trigger_name, "core.ThingStatusChangeTrigger",
    [("thingUID", CValue.str thing_uid)]
      ++ (match previous_status with
          | some s => [("previousStatus", CValue.str s)] | none => [])
      ++ (match status with | some s => [("status", CValue.str s)] | none => [])⟩,
   n + 1)

/-- core.ChannelEventTrigger. -/
def ChannelEventTrigger (env : Env) (channel_uid : String) (event : Option String)
    (trigger_name : String) (n : Nat) : TriggerSpec × Nat :=
  (⟨validate_uid (env.uuids n) trigger_name, "core.ChannelEventTrigger",
    [("channelUID", CValue.str channel_uid)]
      ++ (match event with | some s => [("event", CValue.str s)] | none => [])⟩,
   n + 1)

/-- core.GenericEventTrigger.  The when flows always pass event_types a single
string (none models an undefined lookup, which the map stores as null). -/
def GenericEventTrigger (env : Env) (event_source : String) (event_types : Option String)
    (trigger_name : String) (n : Nat) : TriggerSpec × Nat :=
  (⟨validate_uid (env.uuids n) trigger_name, "core.GenericEventTrigger",
    [("eventTopic", CValue.str "openhab/*"),
     ("eventSource", CValue.str ("openhab/" ++ event_source ++ "/")),
     ("eventTypes", match event_types with | some s => CValue.str s | none => CValue.nullv)]⟩,
   n + 1)

/-- ItemEventTrigger: a GenericEventTrigger on the items source path, with an
optional item-name filter (a falsy name adds no path segment). -/
def ItemEventTrigger (env : Env) (event_types : Option String) (item_name : Option String)
    (trigger_name : String) (n : Nat) : TriggerSpec × Nat :=
  GenericEventTrigger env
    ("items" ++ (if jsTruthyStr item_name then "/" ++ jsStr item_name else ""))
    event_types trigger_name n

/-- ThingEventTrigger: a GenericEventTrigger on the things source path. -/
def ThingEventTrigger (env : Env) (event_types : Option String) (thing_uid : Option String)
    (trigger_name : String) (n : Nat) : TriggerSpec × Nat :=
  GenericEventTrigger env
    ("things" ++ (if jsTruthyStr thing_uid then "/" ++ jsStr thing_uid else ""))
    event_types trigger_name n

/-- timer.GenericCronTrigger. -/
def CronTrigger (env : Env) (cron_expression : String) (trigger_name : String) (n : Nat) :
    TriggerSpec × Nat :=
  (⟨validate_uid (env.uuids n) trigger_name, "timer.GenericCronTrigger",
    [("cronExpression", CValue.str cron_expression)]⟩,
   n + 1)

/-- core.SystemStartlevelTrigger (start level 20 is rules). -/
def StartupTrigger (env : Env) (trigger_name : String) (n : Nat) : TriggerSpec × Nat :=
  (⟨validate_uid (env.uuids n) trigger_name, "core.SystemStartlevelTrigger",
    [("startlevel", CValue.num 20)]⟩,
   n + 1)

/-! ### The builder strategies of `when`

The source returns one of seven inner functions (closures over the parse
slots and the validated trigger_name) or, through the catch block, the
bad_trigger poison.  The closures are defunctionalized: each constructor
carries exactly what its closure captures, and applyBuilder below executes
its body. -/

/-- A builder strategy: the defunctionalized closure `when` returns. -/
inductive Builder
  | itemTrigger (st : ParseState)
  | itemEventTrigger (st : ParseState) (trigger_name : String)
  | cronTrigger (st : ParseState) (trigger_name : String)
  | systemTrigger (trigger_name : String)
  | thingTrigger (st : ParseState) (trigger_name : String)
  | thingEventTrigger (st : ParseState) (trigger_name : String)
  | channelTrigger (st : ParseState) (trigger_name : String)
  | bad
deriving DecidableEq

/-- add_trigger of the source: create the triggers attribute when absent,
push the trigger, return the same object. -/
def add_trigger (func : Func) (trigger : Option TriggerSpec) : Func :=
  match func.triggers with
  | none => { func with triggers := some [trigger] }
  | some ts => { func with triggers := some (ts ++ [trigger]) }

/-- The per-member trigger name item_trigger derives before re-validating it
(note: received command appends the state with no separator, as in the
source). -/
def item_trigger_name (st : ParseState) (member_name : String) : String :=
  "Item-" ++ member_name ++ "-"
    ++ String.mk (replaceFirstSpace (jsStr st.trigger_type).data)
    ++ (match st.old_state with | some o => "-from-" ++ o | none => "")
    ++ (if st.new_state.isSome && st.trigger_type == some "changed" then "-to-" else "")
    ++ (if st.new_state.isSome && st.trigger_type == some "received update" then "-" else "")
    ++ (match st.new_state with | some s => s | none => "")

/-- One member of the item_trigger loop: derive the name, validate it (uuid
index n), then build the trigger for the member (uuid index n + 1). -/
def itemMemberSpec (env : Env) (st : ParseState) (member_name : String) (n : Nat) :
    TriggerSpec :=
  if st.trigger_type == some "received update" then
    (ItemStateUpdateTrigger env member_name st.new_state
      (validate_uid (env.uuids n) (item_trigger_name st member_name)) (n + 1)).1
  else if st.trigger_type == some "received command" then
    (ItemCommandTrigger env member_name st.new_state
      (validate_uid (env.uuids n) (item_trigger_name st member_name)) (n + 1)).1
  else
    (ItemStateChangeTrigger env member_name st.old_state st.new_state
      (validate_uid (env.uuids n) (item_trigger_name st member_name)) (n + 1)).1

/-- The group_members.forEach loop of item_trigger: two uuids per member. -/
def itemTriggerLoop (env : Env) (st : ParseState) :
    List String → Func → Nat → Func × Nat
  | [], func, n => (func, n)
  | m :: rest, func, n =>
    itemTriggerLoop env st rest (add_trigger func (some (itemMemberSpec env st m n))) (n + 2)

/-- The event name map of item_event_trigger (undefined for any other
trigger type, which GenericEventTrigger would store as null). -/
def itemEventName (ty : Option String) : Option String :=
  if ty == some "added" then some "ItemAddedEvent"
  else if ty == some "removed" then some "ItemRemovedEvent"
  else if ty == some "modified" then some "ItemUpdatedEvent"
  else none

/-- The event name map of thing_event_trigger. -/
def thingEventName (ty : Option String) : Option String :=
  if ty == some "added" then some "ThingAddedEvent"
  else if ty == some "removed" then some "ThingRemovedEvent"
  else if ty == some "modified" then some "ThingUpdatedEvent"
  else none

/-- Applying a builder strategy to a callback object, threading the uuid
stream index.  .error () is a host exception escaping the strategy (the
when-level try/catch has already returned, so nothing catches it). -/
def applyBuilder (env : Env) (b : Builder) (func : Func) (n : Nat) :
    Except Unit (Func × Nat) :=
  match b with
  | .itemTrigger st =>
    match getItem? env st.trigger_target with
    | none => .error ()
    | some item =>
      let group_members : List String :=
        if st.target_type == some "Member of" then item.members
        else if st.target_type == some "Descendent of" then item.allMembers
        else [item.name]
      .ok (itemTriggerLoop env st group_members func n)
  | .itemEventTrigger st tn =>
    let p := ItemEventTrigger env (itemEventName st.trigger_type)
      (jsOrNull st.trigger_target) tn n
    .ok (add_trigger func (some p.1), p.2)
  | .cronTrigger st tn =>
    let p := CronTrigger env (jsStr st.trigger_type) tn n
    .ok (add_trigger func (some p.1), p.2)
  | .systemTrigger tn =>
    let p := StartupTrigger env tn n
    .ok (add_trigger func (some p.1), p.2)
  | .thingTrigger st tn =>
    if st.new_state.isSome || st.old_state.isSome then
      if st.trigger_type == some "changed" then
        let p := ThingStatusChangeTrigger env (jsStr st.trigger_target)
          st.old_state st.new_state tn n
        .ok (add_trigger func (some p.1), p.2)
      else
        let p := ThingStatusUpdateTrigger env (jsStr st.trigger_target)
          st.new_state tn n
        .ok (add_trigger func (some p.1), p.2)
    else
      let p := ThingEventTrigger env
        (some (if st.trigger_type == some "changed" then "ThingStatusInfoChangedEvent"
               else "ThingStatusInfoEvent"))
        st.trigger_target tn n
      .ok (add_trigger func (some p.1), p.2)
  | .thingEventTrigger st tn =>
    let p := ThingEventTrigger env (thingEventName st.trigger_type)
      (jsOrNull st.trigger_target) tn n
    .ok (add_trigger func (some p.1), p.2)
  | .channelTrigger st tn =>
    let p := ChannelEventTrigger env (jsStr st.trigger_target) st.new_state tn n
    .ok (add_trigger func (some p.1), p.2)
  | .bad => .ok (add_trigger func none, n)

/-- The builder selection at the end of the try block of `when` (none models
the implicit undefined return when no branch matches; unreachable for any
state the grammar produces). -/
def selectBuilder (st : ParseState) (tn : String) : Option Builder :=
  if ["Item", "Member of", "Descendent of"].contains (jsStr st.target_type) then
    if isLifecycle st.trigger_type then some (.itemEventTrigger st tn)
    else some (.itemTrigger st)
  else if st.target_type == some "Thing" then
    if isLifecycle st.trigger_type then some (.thingEventTrigger st tn)
    else some (.thingTrigger st tn)
  else if st.target_type == some "Channel" then some (.channelTrigger st tn)
  else if st.target_type == some "System" then some (.systemTrigger tn)
  else if st.target_type == some "Time" then some (.cronTrigger st tn)
  else none

/-- The body of `when` up to the builder selection: tokenize (with the
single-word shortcut), validate, then compute
trigger_name = validate_uid(trigger_name || expr), consuming one uuid. -/
def whenCore (env : Env) (expr : String) (n : Nat) :
    Except WhenErr (Option Builder × Nat) := do
  let input_list := splitSpaces expr
  let st ←
    if input_list.length > 1 then
      match runGrammar env expr input_list with
      | .ok st => pure st
      | .error msg => .error (.range msg)
    else
      pure ⟨some "Item", some expr, some "changed", none, none⟩
  let _ ← validateState env expr st
  let tn := validate_uid (env.uuids n) expr
  .ok (selectBuilder st tn, n + 1)

/-- What a call of `when` produces: a builder strategy; the poison path (a
RangeError was caught, LOG.warn got its message, and bad_trigger is
returned); a re-raised generic failure for any other exception; or the
implicit undefined return. -/
inductive WhenResult
  | strategy (b : Builder)
  | poison (warning : String)
  | internalError
  | undef
deriving DecidableEq

/-- The builder a WhenResult hands to the caller (the poison path returns the
bad_trigger strategy). -/
def WhenResult.asBuilder : WhenResult → Option Builder
  | .strategy b => some b
  | .poison _ => some .bad
  | _ => none

/-- The when decorator: its body, with the catch block folded in.  The second
component is the next free uuid index (an aborted parse consumed none). -/
def when (env : Env) (expr : String) (n : Nat) : WhenResult × Nat :=
  match whenCore env expr n with
  | .ok (some b, n2) => (.strategy b, n2)
  | .ok (none, n2) => (.undef, n2)
  | .error (.range msg) => (.poison msg, n)
  | .error .host => (.internalError, n)

/-! ### Derived views used by the theorems -/

/-- The member set item_trigger iterates over: getMembers() for Member of,
getAllMembers() for Descendent of, the item itself otherwise. -/
def groupMembers (st : ParseState) (item : RegItem) : List String :=
  if st.target_type == some "Member of" then item.members
  else if st.target_type == some "Descendent of" then item.allMembers
  else [item.name]

/-- Pushing a list of triggers one by one with add_trigger. -/
def add_triggers (func : Func) (ts : List (Option TriggerSpec)) : Func :=
  ts.foldl add_trigger func

/-- The specs the item_trigger loop builds for a member list, with the uuid
indices it consumes (two per member). -/
def memberSpecs (env : Env) (st : ParseState) : List String → Nat → List TriggerSpec
  | [], _ => []
  | m :: rest, n => itemMemberSpec env st m n :: memberSpecs env st rest (n + 2)

/-- The trigger list a builder strategy attaches and the uuid index after it
runs (error: a host exception escapes the strategy). -/
def builderSpecs (env : Env) (b : Builder) (n : Nat) :
    Except Unit (List (Option TriggerSpec) × Nat) :=
  match b with
  | .itemTrigger st =>
    match getItem? env st.trigger_target with
    | none => .error ()
    | some item =>
      .ok ((memberSpecs env st (groupMembers st item) n).map some,
           n + 2 * (groupMembers st item).length)
  | .itemEventTrigger st tn =>
    let p := ItemEventTrigger env (itemEventName st.trigger_type)
      (jsOrNull st.trigger_target) tn n
    .ok ([some p.1], p.2)
  | .cronTrigger st tn =>
    let p := CronTrigger env (jsStr st.trigger_type) tn n
    .ok ([some p.1], p.2)
  | .systemTrigger tn =>
    let p := StartupTrigger env tn n
    .ok ([some p.1], p.2)
  | .thingTrigger st tn =>
    if st.new_state.isSome || st.old_state.isSome then
      if st.trigger_type == some "changed" then
        let p := ThingStatusChangeTrigger env (jsStr st.trigger_target)
          st.old_state st.new_state tn n
        .ok ([some p.1], p.2)
      else
        let p := ThingStatusUpdateTrigger env (jsStr st.trigger_target)
          st.new_state tn n
        .ok ([some p.1], p.2)
    else
      let p := ThingEventTrigger env
        (some (if st.trigger_type == some "changed" then "ThingStatusInfoChangedEvent"
               else "ThingStatusInfoEvent"))
        st.trigger_target tn n
      .ok ([some p.1], p.2)
  | .thingEventTrigger st tn =>
    let p := ThingEventTrigger env (thingEventName st.trigger_type)
      (jsOrNull st.trigger_target) tn n
    .ok ([some p.1], p.2)
  | .channelTrigger st tn =>
    let p := ChannelEventTrigger env (jsStr st.trigger_target) st.new_state tn n
    .ok ([some p.1], p.2)
  | .bad => .ok ([none], n)

/-- Substring test (needle occurs somewhere in hay). -/
def containsSubstr (hay needle : String) : Bool :=
  hay.data.tails.any (fun t => needle.data.isPrefixOf t)

/-! ### Concrete environments for the examples below -/

/-- An environment with an empty item registry, a single registered thing and
the constant uuid stream. -/
def envThing : Env :=
  ⟨[], fun u => u == "kodi:kodi:familyroom", fun _ => none, fun _ => true, fun _ => "u"⟩

/-- An environment whose registries are all empty. -/
def envDemo : Env :=
  ⟨[], fun _ => false, fun _ => none, fun _ => true, fun _ => "u"⟩

/-- A switch item accepting ON and OFF as states and as commands. -/
def itemSwitch : RegItem :=
  ⟨"Test_Switch_1", "Switch", [], [],
   fun s => s == "ON" || s == "OFF", fun s => s == "ON" || s == "OFF"⟩

/-- An environment holding itemSwitch. -/
def envSwitch : Env :=
  ⟨[itemSwitch], fun _ => false, fun _ => none, fun _ => true, fun _ => "u"⟩

/-- A switch item whose command parser accepts nothing. -/
def itemSwitchNoCmd : RegItem :=
  ⟨"Test_Switch_1", "Switch", [], [],
   fun s => s == "ON" || s == "OFF", fun _ => false⟩

/-- An environment holding itemSwitchNoCmd. -/
def envSwitchNoCmd : Env :=
  ⟨[itemSwitchNoCmd], fun _ => false, fun _ => none, fun _ => true, fun _ => "u"⟩

/-- The item of the spec's worked example, accepting ON and OFF. -/
def itemMotion : RegItem :=
  ⟨"gMotion_Sensors", "Switch", [], [],
   fun s => s == "ON" || s == "OFF", fun _ => false⟩

/-- An environment holding itemMotion. -/
def envMotion : Env :=
  ⟨[itemMotion], fun _ => false, fun _ => none, fun _ => true, fun _ => "u"⟩

/-- A group with two members. -/
def itemGroup : RegItem :=
  ⟨"gContact_Sensors", "Group", ["Door_Contact", "Window_Contact"],
   ["Door_Contact", "Window_Contact", "Cellar_Contact"],
   fun _ => true, fun _ => false⟩

/-- An environment holding itemGroup, with nine distinct equal-length uuids. -/
def envGroup : Env :=
  ⟨[itemGroup], fun _ => false, fun _ => none, fun _ => true,
   fun i => ["a0", "a1", "a2", "a3", "a4", "a5", "a6", "a7", "a8"].getD i "a9"⟩

/-! ### Lemmas about the sanitize loop -/

theorem isUidChar_underscore : isUidChar '_' = true := by decide

theorem map_sanitize_of_valid (l : List Char) (h : ∀ c ∈ l, isUidChar c = true) :
    l.map (fun c => if isUidChar c then c else '_') = l := by
  induction l with
  | nil => rfl
  | cons a as ih =>
    have ha := h a (by simp)
    simp only [List.map_cons, ha, ite_true]
    rw [ih (fun c hc => h c (List.mem_cons_of_mem _ hc))]

theorem replaceFirstInvalid_countP (l : List Char) (h : l.any (fun c => !isUidChar c) = true) :
    (replaceFirstInvalid l).countP (fun c => !isUidChar c) + 1
      = l.countP (fun c => !isUidChar c) := by
  induction l with
  | nil => simp at h
  | cons c cs ih =>
    by_cases hc : isUidChar c = true
    · have h' : cs.any (fun c => !isUidChar c) = true := by
        simpa [hc] using h
      simp [replaceFirstInvalid, List.countP_cons, hc, ih h']
    · have hc' : isUidChar c = false := by
        simpa using hc
      simp [replaceFirstInvalid, List.countP_cons, hc', isUidChar_underscore]

theorem replaceFirstInvalid_map (l : List Char) :
    (replaceFirstInvalid l).map (fun c => if isUidChar c then c else '_')
      = l.map (fun c => if isUidChar c then c else '_') := by
  induction l with
  | nil => rfl
  | cons a as ih =>
    by_cases ha : isUidChar a = true
    · simp [replaceFirstInvalid, ha, ih]
    · have ha' : isUidChar a = false := by simpa using ha
      simp [replaceFirstInvalid, ha', isUidChar_underscore]

theorem sanitizeLoop_eq_map (fuel : Nat) :
    ∀ l : List Char, l.countP (fun c => !isUidChar c) ≤ fuel →
      sanitizeLoop fuel l = l.map (fun c => if isUidChar c then c else '_') := by
  induction fuel with
  | zero =>
    intro l hl
    have hall : ∀ c ∈ l, isUidChar c = true := by
      intro c hc
      by_contra hbad
      have : 0 < l.countP (fun c => !isUidChar c) :=
        List.countP_pos_iff.mpr ⟨c, hc, by simp [hbad]⟩
      omega
    simp [sanitizeLoop, map_sanitize_of_valid l hall]
  | succ fuel ih =>
    intro l hl
    by_cases hany : l.any (fun c => !isUidChar c) = true
    · have hcount := replaceFirstInvalid_countP l hany
      have hle : (replaceFirstInvalid l).countP (fun c => !isUidChar c) ≤ fuel := by
        omega
      rw [sanitizeLoop, if_pos hany, ih _ hle, replaceFirstInvalid_map]
    · have hall : ∀ c ∈ l, isUidChar c = true := by
        intro c hc
        by_contra hbad
        exact hany (List.any_eq_true.mpr ⟨c, hc, by simp [hbad]⟩)
      rw [sanitizeLoop, if_neg (by simpa using hany), map_sanitize_of_valid l hall]

theorem sanitizeChars_eq_map (l : List Char) :
    sanitizeChars l = l.map (fun c => if isUidChar c then c else '_') :=
  sanitizeLoop_eq_map _ l (Nat.le_refl _)

theorem sanitizeChars_valid (l : List Char) :
    ∀ c ∈ sanitizeChars l, isUidChar c = true := by
  rw [sanitizeChars_eq_map]
  intro c hc
  rcases List.mem_map.mp hc with ⟨a, _, ha⟩
  by_cases h : isUidChar a = true
  · rw [← ha, if_pos h]; exact h
  · rw [← ha, if_neg h]; exact isUidChar_underscore

/-! ### Lemmas about the collapse loop -/

theorem length_dropWhile_underscore (l : List Char) :
    (l.dropWhile (fun c => c == '_')).length ≤ l.length := by
  induction l with
  | nil => simp
  | cons c cs ih =>
    by_cases hc : (c == '_') = true
    · rw [List.dropWhile_cons, if_pos hc]
      exact Nat.le_trans ih (Nat.le_succ _)
    · rw [List.dropWhile_cons, if_neg hc]

theorem rfd_singleton (c : Char) : replaceFirstDoubleUnderscore [c] = [c] := rfl

theorem rfd_cons_cons (c1 c2 : Char) (rest : List Char) :
    replaceFirstDoubleUnderscore (c1 :: c2 :: rest)
      = if c1 == '_' && c2 == '_' then '_' :: rest.dropWhile (fun c => c == '_')
        else c1 :: replaceFirstDoubleUnderscore (c2 :: rest) := rfl

theorem hasDouble_cons_cons (c1 c2 : Char) (rest : List Char) :
    hasDoubleUnderscore (c1 :: c2 :: rest)
      = ((c1 == '_' && c2 == '_') || hasDoubleUnderscore (c2 :: rest)) := rfl

theorem rfd_length (l : List Char) (h : hasDoubleUnderscore l = true) :
    (replaceFirstDoubleUnderscore l).length < l.length := by
  induction l with
  | nil => simp [hasDoubleUnderscore] at h
  | cons c1 rest ih =>
    cases rest with
    | nil => simp [hasDoubleUnderscore] at h
    | cons c2 rest2 =>
      by_cases h12 : (c1 == '_' && c2 == '_') = true
      · rw [rfd_cons_cons, if_pos h12]
        have := length_dropWhile_underscore rest2
        simp only [List.length_cons]
        omega
      · rw [rfd_cons_cons, if_neg h12]
        have h2 : hasDoubleUnderscore (c2 :: rest2) = true := by
          rw [hasDouble_cons_cons] at h
          rcases Bool.or_eq_true_iff.mp h with hx | hx
          · exact absurd hx h12
          · exact hx
        have := ih h2
        simp only [List.length_cons] at this ⊢
        omega

theorem collapseLoop_noDouble (fuel : Nat) :
    ∀ l : List Char, l.length ≤ fuel → hasDoubleUnderscore (collapseLoop fuel l) = false := by
  induction fuel with
  | zero =>
    intro l hl
    have : l = [] := List.length_eq_zero.mp (Nat.le_zero.mp hl)
    subst this
    simp [collapseLoop, hasDoubleUnderscore]
  | succ fuel ih =>
    intro l hl
    by_cases h : hasDoubleUnderscore l = true
    · rw [collapseLoop, if_pos h]
      exact ih _ (by have := rfd_length l h; omega)
    · rw [collapseLoop, if_neg h]
      simpa using h

theorem collapseChars_noDouble (l : List Char) :
    hasDoubleUnderscore (collapseChars l) = false :=
  collapseLoop_noDouble _ l (Nat.le_refl _)

theorem rfd_mem (l : List Char) (c : Char) (h : c ∈ replaceFirstDoubleUnderscore l) :
    c ∈ l := by
  induction l with
  | nil => simp [replaceFirstDoubleUnderscore] at h
  | cons c1 rest ih =>
    cases rest with
    | nil => simpa [rfd_singleton] using h
    | cons c2 rest2 =>
      by_cases h12 : (c1 == '_' && c2 == '_') = true
      · rw [rfd_cons_cons, if_pos h12] at h
        rcases List.mem_cons.mp h with hc | hc
        · subst hc
          have : c1 = '_' := by
            have := (Bool.and_eq_true_iff.mp h12).1
            simpa using this
          simp [this]
        · have : c ∈ rest2 := (List.dropWhile_sublist _).mem hc
          simp [this]
      · rw [rfd_cons_cons, if_neg h12] at h
        rcases List.mem_cons.mp h with hc | hc
        · simp [hc]
        · have := ih hc
          rcases List.mem_cons.mp this with hx | hx
          · simp [hx]
          · simp [hx]

theorem collapseLoop_mem (fuel : Nat) :
    ∀ l c, c ∈ collapseLoop fuel l → c ∈ l := by
  induction fuel with
  | zero => intro l c h; simpa [collapseLoop] using h
  | succ fuel ih =>
    intro l c h
    by_cases hd : hasDoubleUnderscore l = true
    · rw [collapseLoop, if_pos hd] at h
      exact rfd_mem l c (ih _ c h)
    · rwa [collapseLoop, if_neg hd] at h

theorem isAlnumChar_ne_underscore (c : Char) (h : isAlnumChar c = true) : c ≠ '_' := by
  intro he
  subst he
  simp [isAlnumChar] at h

theorem rfd_startsAlnum (l : List Char) (h : startsAlnum l = true) :
    startsAlnum (replaceFirstDoubleUnderscore l) = true := by
  cases l with
  | nil => simp [startsAlnum] at h
  | cons c1 rest =>
    cases rest with
    | nil => simpa [rfd_singleton, startsAlnum] using h
    | cons c2 rest2 =>
      have hc1 : isAlnumChar c1 = true := by simpa [startsAlnum] using h
      have hne : (c1 == '_') = false := by
        simpa using isAlnumChar_ne_underscore c1 hc1
      rw [rfd_cons_cons, if_neg (by simp [hne])]
      simpa [startsAlnum] using hc1

theorem collapseLoop_startsAlnum (fuel : Nat) :
    ∀ l, startsAlnum l = true → startsAlnum (collapseLoop fuel l) = true := by
  induction fuel with
  | zero => intro l h; simpa [collapseLoop] using h
  | succ fuel ih =>
    intro l h
    by_cases hd : hasDoubleUnderscore l = true
    · rw [collapseLoop, if_pos hd]
      exact ih _ (rfd_startsAlnum l h)
    · rwa [collapseLoop, if_neg hd]

/-! ### The shape invariant of validate_uid -/

theorem startsAlnum_javascript (l : List Char) :
    startsAlnum ("javascript".data ++ l) = true := by
  have : "javascript".data = 'j' :: "avascript".data := rfl
  rw [this]
  simp [startsAlnum, isAlnumChar]

theorem uidStep1_valid (uuid uid : String) (h : ∀ c ∈ uuid.data, isUidChar c = true) :
    ∀ c ∈ uidStep1 uuid uid, isUidChar c = true := by
  intro c hc
  unfold uidStep1 at hc
  by_cases he : uid.data.isEmpty
  · rw [if_pos he] at hc
    exact h c hc
  · rw [if_neg he] at hc
    rcases List.mem_append.mp hc with hx | hx
    · exact sanitizeChars_valid _ c hx
    · exact h c hx

theorem uidStep2_valid (l : List Char) (h : ∀ c ∈ l, isUidChar c = true) :
    ∀ c ∈ uidStep2 l, isUidChar c = true := by
  intro c hc
  unfold uidStep2 at hc
  by_cases hs : startsAlnum l = true
  · rw [if_pos hs] at hc
    exact h c hc
  · rw [if_neg hs] at hc
    rcases List.mem_append.mp hc with hx | hx
    · have hj : ∀ c ∈ "javascript".data, isUidChar c = true := by decide
      exact hj c hx
    · exact h c hx

theorem uidStep2_startsAlnum (l : List Char) : startsAlnum (uidStep2 l) = true := by
  unfold uidStep2
  by_cases hs : startsAlnum l = true
  · rwa [if_pos hs]
  · rw [if_neg hs]
    exact startsAlnum_javascript l

theorem validate_uid_shape (uuid uid : String)
    (h : ∀ c ∈ uuid.data, isUidChar c = true) :
    uidShapeOK (validate_uid uuid uid) := by
  refine ⟨?_, ?_, ?_⟩
  · exact collapseLoop_startsAlnum _ _ (uidStep2_startsAlnum _)
  · intro c hc
    exact uidStep2_valid _ (uidStep1_valid uuid uid h) c (collapseLoop_mem _ _ c hc)
  · exact collapseChars_noDouble _

/-! ### The uuid suffix survives validate_uid -/

theorem dropWhile_append_no_underscore (u : List Char) (hu : ∀ c ∈ u, c ≠ '_') :
    ∀ x : List Char,
      (x ++ u).dropWhile (fun c => c == '_') = x.dropWhile (fun c => c == '_') ++ u := by
  intro x
  induction x with
  | nil =>
    cases u with
    | nil => simp
    | cons h t =>
      have : (h == '_') = false := by
        simpa using hu h (by simp)
      simp [List.dropWhile_cons, this]
  | cons c x2 ih =>
    by_cases hc : (c == '_') = true
    · simp only [List.cons_append, List.dropWhile_cons, hc, ite_true, ih]
    · simp only [List.cons_append, List.dropWhile_cons, hc, Bool.false_eq_true,
        ite_false]

theorem rfd_id_no_underscore (u : List Char) (hu : ∀ c ∈ u, c ≠ '_') :
    replaceFirstDoubleUnderscore u = u := by
  induction u with
  | nil => rfl
  | cons c1 rest ih =>
    cases rest with
    | nil => rfl
    | cons c2 rest2 =>
      have h1 : c1 ≠ '_' := hu c1 (by simp)
      rw [rfd_cons_cons, if_neg (by simp [h1])]
      rw [ih (fun c hc => hu c (List.mem_cons_of_mem _ hc))]

theorem rfd_append (u : List Char) (hu : ∀ c ∈ u, c ≠ '_') :
    ∀ x : List Char, ∃ y : List Char,
      replaceFirstDoubleUnderscore (x ++ u) = y ++ u := by
  intro x
  induction x with
  | nil => exact ⟨[], by simpa using rfd_id_no_underscore u hu⟩
  | cons c1 rest ih =>
    cases rest with
    | nil =>
      cases u with
      | nil => exact ⟨[c1], by simp [rfd_singleton]⟩
      | cons h t =>
        have hh : h ≠ '_' := hu h (by simp)
        refine ⟨[c1], ?_⟩
        simp only [List.singleton_append, List.cons_append, List.nil_append]
        rw [rfd_cons_cons, if_neg (by simp [hh])]
        rw [rfd_id_no_underscore (h :: t) hu]
    | cons c2 rest2 =>
      by_cases h12 : (c1 == '_' && c2 == '_') = true
      · refine ⟨'_' :: rest2.dropWhile (fun c => c == '_'), ?_⟩
        simp only [List.cons_append]
        rw [rfd_cons_cons, if_pos h12]
        rw [dropWhile_append_no_underscore u hu rest2]
      · rcases ih with ⟨y, hy⟩
        refine ⟨c1 :: y, ?_⟩
        simp only [List.cons_append]
        rw [rfd_cons_cons, if_neg h12]
        simp only [List.cons_append] at hy
        rw [hy]

theorem collapseLoop_append (u : List Char) (hu : ∀ c ∈ u, c ≠ '_') (fuel : Nat) :
    ∀ x : List Char, ∃ y : List Char, collapseLoop fuel (x ++ u) = y ++ u := by
  induction fuel with
  | zero => intro x; exact ⟨x, rfl⟩
  | succ fuel ih =>
    intro x
    by_cases hd : hasDoubleUnderscore (x ++ u) = true
    · rw [collapseLoop, if_pos hd]
      rcases rfd_append u hu x with ⟨y, hy⟩
      rw [hy]
      exact ih y
    · rw [collapseLoop, if_neg hd]
      exact ⟨x, rfl⟩

theorem validate_uid_suffix (uuid uid : String) (hu : ∀ c ∈ uuid.data, c ≠ '_') :
    ∃ y : List Char, (validate_uid uuid uid).data = y ++ uuid.data := by
  have h1 : ∃ x, uidStep1 uuid uid = x ++ uuid.data := by
    unfold uidStep1
    by_cases he : uid.data.isEmpty
    · exact ⟨[], by rw [if_pos he]; simp⟩
    · exact ⟨sanitizeChars uid.data, by rw [if_neg he]⟩
  rcases h1 with ⟨x, hx⟩
  have h2 : ∃ x2, uidStep2 (uidStep1 uuid uid) = x2 ++ uuid.data := by
    unfold uidStep2
    by_cases hs : startsAlnum (uidStep1 uuid uid) = true
    · exact ⟨x, by rw [if_pos hs, hx]⟩
    · exact ⟨"javascript".data ++ x, by rw [if_neg hs, hx]; simp⟩
  rcases h2 with ⟨x2, hx2⟩
  rcases collapseLoop_append uuid.data hu (x2 ++ uuid.data).length x2 with ⟨y, hy⟩
  refine ⟨y, ?_⟩
  show (String.mk (collapseChars (uidStep2 (uidStep1 uuid uid)))).data = y ++ uuid.data
  rw [hx2]
  simpa [collapseChars] using hy

theorem validate_uid_ne (u1 u2 s1 s2 : String)
    (h1 : ∀ c ∈ u1.data, c ≠ '_') (h2 : ∀ c ∈ u2.data, c ≠ '_')
    (hlen : u1.data.length = u2.data.length) (hne : u1 ≠ u2) :
    validate_uid u1 s1 ≠ validate_uid u2 s2 := by
  intro he
  rcases validate_uid_suffix u1 s1 h1 with ⟨y1, hy1⟩
  rcases validate_uid_suffix u2 s2 h2 with ⟨y2, hy2⟩
  have hdata : y1 ++ u1.data = y2 ++ u2.data := by
    rw [← hy1, ← hy2, he]
  have hud : u1.data = u2.data := List.append_inj_right' hdata (by omega)
  exact hne (by cases u1; cases u2; exact congrArg String.mk hud)

/-! ### Lemmas about add_trigger and the builder strategies -/

theorem add_trigger_eq (func : Func) (t : Option TriggerSpec) :
    add_trigger func t
      = { func with triggers := some (func.triggers.getD [] ++ [t]) } := by
  unfold add_trigger
  cases func.triggers <;> simp

theorem add_triggers_nil (func : Func) : add_triggers func [] = func := rfl

theorem add_triggers_cons (func : Func) (t : Option TriggerSpec)
    (ts : List (Option TriggerSpec)) :
    add_triggers func (t :: ts) = add_triggers (add_trigger func t) ts := rfl

theorem add_triggers_name (func : Func) (ts : List (Option TriggerSpec)) :
    (add_triggers func ts).name = func.name := by
  induction ts generalizing func with
  | nil => rfl
  | cons t ts ih =>
    rw [add_triggers_cons, ih, add_trigger_eq]

theorem add_triggers_description (func : Func) (ts : List (Option TriggerSpec)) :
    (add_triggers func ts).description = func.description := by
  induction ts generalizing func with
  | nil => rfl
  | cons t ts ih =>
    rw [add_triggers_cons, ih, add_trigger_eq]

theorem add_triggers_triggers (func : Func) (ts : List (Option TriggerSpec)) :
    (add_triggers func ts).triggers.getD [] = func.triggers.getD [] ++ ts := by
  induction ts generalizing func with
  | nil => simp [add_triggers_nil]
  | cons t ts ih =>
    rw [add_triggers_cons, ih, add_trigger_eq]
    simp

theorem itemTriggerLoop_eq (env : Env) (st : ParseState) (ms : List String)
    (func : Func) (n : Nat) :
    itemTriggerLoop env st ms func n
      = (add_triggers func ((memberSpecs env st ms n).map some), n + 2 * ms.length) := by
  induction ms generalizing func n with
  | nil => simp [itemTriggerLoop, memberSpecs, add_triggers_nil]
  | cons m rest ih =>
    rw [itemTriggerLoop, ih]
    simp only [memberSpecs, List.map_cons, add_triggers_cons, List.length_cons]
    have : n + 2 + 2 * rest.length = n + 2 * (rest.length + 1) := by omega
    rw [this]

theorem applyBuilder_eq_builderSpecs (env : Env) (b : Builder) (func : Func) (n : Nat) :
    applyBuilder env b func n
      = (builderSpecs env b n).map (fun p => (add_triggers func p.1, p.2)) := by
  cases b with
  | itemTrigger st =>
    simp only [applyBuilder, builderSpecs]
    cases getItem? env st.trigger_target with
    | none => rfl
    | some item =>
      simp only [Except.map]
      rw [itemTriggerLoop_eq]
      rfl
  | itemEventTrigger st tn => rfl
  | cronTrigger st tn => rfl
  | systemTrigger tn => rfl
  | thingTrigger st tn =>
    simp only [applyBuilder, builderSpecs]
    by_cases h1 : (st.new_state.isSome || st.old_state.isSome) = true
    · rw [if_pos h1, if_pos h1]
      by_cases h2 : (st.trigger_type == some "changed") = true
      · rw [if_pos h2, if_pos h2]; rfl
      · rw [if_neg h2, if_neg h2]; rfl
    · rw [if_neg h1, if_neg h1]; rfl
  | thingEventTrigger st tn => rfl
  | channelTrigger st tn => rfl
  | bad => rfl

/-! ### Lemmas about the member specs of item_trigger -/

theorem itemMemberSpec_id (env : Env) (st : ParseState) (m : String) (n : Nat) :
    ∃ s, (itemMemberSpec env st m n).id = validate_uid (env.uuids (n + 1)) s := by
  unfold itemMemberSpec
  by_cases h1 : (st.trigger_type == some "received update") = true
  · rw [if_pos h1]
    exact ⟨_, rfl⟩
  · rw [if_neg h1]
    by_cases h2 : (st.trigger_type == some "received command") = true
    · rw [if_pos h2]
      exact ⟨_, rfl⟩
    · rw [if_neg h2]
      exact ⟨_, rfl⟩

theorem itemMemberSpec_itemName (env : Env) (st : ParseState) (m : String) (n : Nat) :
    (itemMemberSpec env st m n).configuration.lookup "itemName"
      = some (CValue.str m) := by
  unfold itemMemberSpec
  by_cases h1 : (st.trigger_type == some "received update") = true
  · rw [if_pos h1]
    simp [ItemStateUpdateTrigger, List.lookup]
  · rw [if_neg h1]
    by_cases h2 : (st.trigger_type == some "received command") = true
    · rw [if_pos h2]
      simp [ItemCommandTrigger, List.lookup]
    · rw [if_neg h2]
      simp [ItemStateChangeTrigger, List.lookup]

theorem memberSpecs_length (env : Env) (st : ParseState) (ms : List String) (n : Nat) :
    (memberSpecs env st ms n).length = ms.length := by
  induction ms generalizing n with
  | nil => rfl
  | cons m rest ih => simp [memberSpecs, ih]

theorem memberSpecs_itemNames (env : Env) (st : ParseState) (ms : List String) (n : Nat) :
    (memberSpecs env st ms n).map (fun t => t.configuration.lookup "itemName")
      = ms.map (fun m => some (CValue.str m)) := by
  induction ms generalizing n with
  | nil => rfl
  | cons m rest ih =>
    simp [memberSpecs, itemMemberSpec_itemName, ih]

theorem memberSpecs_append (env : Env) (st : ParseState) (ms1 ms2 : List String) (n : Nat) :
    memberSpecs env st (ms1 ++ ms2) n
      = memberSpecs env st ms1 n ++ memberSpecs env st ms2 (n + 2 * ms1.length) := by
  induction ms1 generalizing n with
  | nil => simp [memberSpecs]
  | cons m rest ih =>
    have step : memberSpecs env st ((m :: rest) ++ ms2) n
        = itemMemberSpec env st m n :: memberSpecs env st (rest ++ ms2) (n + 2) := rfl
    rw [step, ih (n + 2)]
    have h2 : n + 2 + 2 * rest.length = n + 2 * (m :: rest).length := by
      simp only [List.length_cons]
      omega
    rw [h2]
    rfl

theorem memberSpecs_mem_id (env : Env) (st : ParseState) (ms : List String) (k : Nat)
    (x : TriggerSpec) (hx : x ∈ memberSpecs env st ms k) :
    ∃ j, j < ms.length ∧ ∃ s, x.id = validate_uid (env.uuids (k + 2 * j + 1)) s := by
  induction ms generalizing k with
  | nil => simp [memberSpecs] at hx
  | cons m rest ih =>
    rw [memberSpecs] at hx
    rcases List.mem_cons.mp hx with h | h
    · rcases itemMemberSpec_id env st m k with ⟨s, hs⟩
      exact ⟨0, by simp, s, by rw [h, hs]⟩
    · rcases ih (k + 2) h with ⟨j, hj, s, hs⟩
      refine ⟨j + 1, by simpa using Nat.succ_lt_succ hj, s, ?_⟩
      rw [hs]
      have : k + 2 + 2 * j + 1 = k + 2 * (j + 1) + 1 := by omega
      rw [this]

theorem memberSpecs_ids_nodup (env : Env) (st : ParseState) (B : Nat)
    (hinj : ∀ i, i < B → ∀ j, j < B → i ≠ j → env.uuids i ≠ env.uuids j)
    (hlen : ∀ i, i < B → ∀ j, j < B →
      (env.uuids i).data.length = (env.uuids j).data.length)
    (hchr : ∀ i, i < B → ∀ c ∈ (env.uuids i).data, c ≠ '_') :
    ∀ (ms : List String) (k : Nat), k + 2 * ms.length ≤ B →
      ((memberSpecs env st ms k).map (fun t => t.id)).Nodup := by
  intro ms
  induction ms with
  | nil => intro k _; simp [memberSpecs]
  | cons m rest ih =>
    intro k hk
    have hlen1 : k + 2 * (m :: rest).length = k + 2 + 2 * rest.length := by
      simp [List.length_cons]; omega
    rw [memberSpecs, List.map_cons, List.nodup_cons]
    constructor
    · intro hmem
      rcases List.mem_map.mp hmem with ⟨x, hx, heq⟩
      rcases memberSpecs_mem_id env st rest (k + 2) x hx with ⟨j, hj, s2, hs2⟩
      rcases itemMemberSpec_id env st m k with ⟨s1, hs1⟩
      have hb1 : k + 1 < B := by
        simp [List.length_cons] at hk
        omega
      have hb2 : k + 2 + 2 * j + 1 < B := by
        simp [List.length_cons] at hk
        omega
      have hne : env.uuids (k + 2 + 2 * j + 1) ≠ env.uuids (k + 1) :=
        hinj _ hb2 _ hb1 (by omega)
      have := validate_uid_ne (env.uuids (k + 2 + 2 * j + 1)) (env.uuids (k + 1)) s2 s1
        (hchr _ hb2) (hchr _ hb1) (hlen _ hb2 _ hb1) hne
      exact this (by rw [← hs2, ← hs1, heq])
    · apply ih (k + 2)
      simp [List.length_cons] at hk
      omega

/-! ### Lemmas about the tokenizer -/

theorem mk_data (s : String) : String.mk s.data = s := by
  cases s
  rfl

theorem splitSpaceAux_no_space (x : List Char) (hx : ∀ c ∈ x, c ≠ ' ') :
    ∀ acc : List Char, splitSpaceAux x acc = [String.mk (acc ++ x)] := by
  induction x with
  | nil => intro acc; simp [splitSpaceAux]
  | cons c cs ih =>
    intro acc
    have hc : c ≠ ' ' := hx c (by simp)
    rw [splitSpaceAux, if_neg hc, ih (fun d hd => hx d (by simp [hd])) (acc ++ [c])]
    simp

theorem splitSpaceAux_sep (x : List Char) (hx : ∀ c ∈ x, c ≠ ' ') (rest : List Char) :
    ∀ acc : List Char,
      splitSpaceAux (x ++ ' ' :: rest) acc
        = String.mk (acc ++ x) :: splitSpaceAux rest [] := by
  induction x with
  | nil =>
    intro acc
    rw [List.nil_append, splitSpaceAux, if_pos rfl]
    simp
  | cons c cs ih =>
    intro acc
    have hc : c ≠ ' ' := hx c (by simp)
    rw [List.cons_append, splitSpaceAux, if_neg hc,
      ih (fun d hd => hx d (by simp [hd])) (acc ++ [c])]
    simp

theorem splitSpaces_single (X : String) (hX : ∀ c ∈ X.data, c ≠ ' ') :
    splitSpaces X = [X] := by
  unfold splitSpaces
  rw [splitSpaceAux_no_space X.data hX []]
  simp [mk_data]

theorem splitSpaces_item_changed (X : String) (hX : ∀ c ∈ X.data, c ≠ ' ') :
    splitSpaces ("Item " ++ X ++ " changed") = ["Item", X, "changed"] := by
  unfold splitSpaces
  have h0 : ("Item " ++ X ++ " changed").data
      = "Item".data ++ (' ' :: (X.data ++ (' ' :: "changed".data))) := rfl
  rw [h0]
  rw [splitSpaceAux_sep "Item".data (by decide) _ []]
  rw [splitSpaceAux_sep X.data hX _ []]
  rw [splitSpaceAux_no_space "changed".data (by decide) []]
  simp [mk_data]

/-! ### The claims -/

/-- C3: for every single-word expression X (no spaces), when(X) behaves
exactly as when("Item " + X + " changed"): both fill the slots
target_type=Item, trigger_target=X, trigger_type=changed with no old or new
state, pass validation, and return the same item builder strategy, so the
specs they attach agree (identical given the same uuid stream, hence equal
up to the uniqueness suffixes in the generated ids). -/
theorem when_single_word_equiv (env : Env) (X : String) (n : Nat)
    (hX : ∀ c ∈ X.data, c ≠ ' ') :
    when env ("Item " ++ X ++ " changed") n = when env X n
    ∧ when env X n
      = (.strategy (.itemTrigger ⟨some "Item", some X, some "changed", none, none⟩),
         n + 1) := by
  have hs1 : splitSpaces X = [X] := splitSpaces_single X hX
  have hs2 : splitSpaces ("Item " ++ X ++ " changed") = ["Item", X, "changed"] :=
    splitSpaces_item_changed X hX
  have hc1 : whenCore env X n
      = .ok (some (.itemTrigger ⟨some "Item", some X, some "changed", none, none⟩),
             n + 1) := by
    unfold whenCore
    rw [hs1]
    rfl
  have hc2 : whenCore env ("Item " ++ X ++ " changed") n
      = .ok (some (.itemTrigger ⟨some "Item", some X, some "changed", none, none⟩),
             n + 1) := by
    unfold whenCore
    rw [hs2]
    rfl
  constructor
  · unfold when
    rw [hc1, hc2]
  · unfold when
    rw [hc1]

/-- Witness for C3 at X = TestItem. -/
theorem when_single_word_equiv_witness :
    (∀ c ∈ ("TestItem" : String).data, c ≠ ' ')
    ∧ when envDemo ("Item " ++ "TestItem" ++ " changed") 0 = when envDemo "TestItem" 0
    ∧ when envDemo "TestItem" 0
      = (.strategy (.itemTrigger
          ⟨some "Item", some "TestItem", some "changed", none, none⟩), 1) :=
  ⟨by decide,
   (when_single_word_equiv envDemo "TestItem" 0 (by decide)).1,
   (when_single_word_equiv envDemo "TestItem" 0 (by decide)).2⟩

/-- C10: in the qualifier phase of a changed trigger, the from and to
qualifiers may come in either order: the token sequence to Y from X is
accepted and fills old_state=X, new_state=Y, exactly as from X to Y, so a
whole expression parses to the same state and builder (hence the same specs
up to the uuid suffixes) in both orders, as the concrete pair of calls
shows. -/
theorem qualifier_order_commutes :
    (∀ (env : Env) (expr target_type trigger_target X Y : String),
      qualLoop env expr target_type trigger_target "changed"
          ["to", Y, "from", X] none none = .ok (some X, some Y)
      ∧ qualLoop env expr target_type trigger_target "changed"
          ["from", X, "to", Y] none none = .ok (some X, some Y))
    ∧ when envMotion "Item gMotion_Sensors changed to OFF from ON" 0
        = when envMotion "Item gMotion_Sensors changed from ON to OFF" 0 :=
  ⟨fun _ _ _ _ _ _ => ⟨rfl, rfl⟩, by decide⟩

/-- C7: every string validate_uid returns — in particular the round trip
validate_uid(validate_uid(s)) — is a well-formed id: it starts with a letter
or digit, holds no character outside [A-Za-z0-9_-], and holds no two adjacent
underscores, whenever the appended uuid strings consist of such characters
(as every UUID.randomUUID().toString() does).  The shape is idempotent even
though the literal string is not (the suffix differs each call). -/
theorem validate_uid_roundtrip_shape (s u1 u2 : String)
    (h1 : ∀ c ∈ u1.data, isUidChar c = true)
    (h2 : ∀ c ∈ u2.data, isUidChar c = true) :
    uidShapeOK (validate_uid u1 s)
    ∧ uidShapeOK (validate_uid u2 (validate_uid u1 s)) :=
  ⟨validate_uid_shape u1 s h1, validate_uid_shape u2 _ h2⟩

/-- Witness for C7 at a concrete ill-formed input and two uuid strings. -/
theorem validate_uid_roundtrip_shape_witness :
    (∀ c ∈ ("12ab-cd" : String).data, isUidChar c = true)
    ∧ (∀ c ∈ ("34ef-gh" : String).data, isUidChar c = true)
    ∧ (uidShapeOK (validate_uid "12ab-cd" "a b!!c")
       ∧ uidShapeOK (validate_uid "34ef-gh" (validate_uid "12ab-cd" "a b!!c"))) :=
  ⟨by decide, by decide,
   validate_uid_roundtrip_shape "a b!!c" "12ab-cd" "34ef-gh" (by decide) (by decide)⟩

/-- C1 (amended): whenever grammar or semantic validation raises a
RangeError, `when` does not propagate it past the parse boundary: it logs the
failure reason as a warning and returns the poison builder, which attaches
exactly one null marker spec — and no real trigger spec — to the callback
object it is applied to.  (The warning embeds the original expression for
every error except the Thing-status validity messages, which carry only the
offending state value — see the counterexample.) -/
theorem when_error_poison_builder (env : Env) (expr : String) (n : Nat) (msg : String)
    (h : whenCore env expr n = .error (.range msg)) :
    when env expr n = (.poison msg, n)
    ∧ (when env expr n).1.asBuilder = some Builder.bad
    ∧ ∀ func m, applyBuilder env Builder.bad func m
        = .ok ({ func with triggers := some (func.triggers.getD [] ++ [none]) }, m) := by
  refine ⟨?_, ?_, ?_⟩
  · unfold when
    rw [h]
  · unfold when
    rw [h]
    rfl
  · intro func m
    have hb : applyBuilder env Builder.bad func m = .ok (add_trigger func none, m) := rfl
    rw [hb, add_trigger_eq]

/-- Witness for C1 at a grammar error. -/
theorem when_error_poison_builder_witness :
    when envDemo "Bogus x changed" 0
      = (.poison ("when: 'Bogus x changed' could not be parsed. "
          ++ "'changed' is invalid for target_type 'Bogus'"), 0)
    ∧ (when envDemo "Bogus x changed" 0).1.asBuilder = some Builder.bad
    ∧ applyBuilder envDemo Builder.bad ⟨some [], "nm", "ds"⟩ 5
        = .ok (⟨some [none], "nm", "ds"⟩, 5) := by
  obtain ⟨h1, h2, h3⟩ := when_error_poison_builder envDemo "Bogus x changed" 0
    ("when: 'Bogus x changed' could not be parsed. "
      ++ "'changed' is invalid for target_type 'Bogus'") (by decide)
  exact ⟨h1, h2, by simpa using h3 ⟨some [], "nm", "ds"⟩ 5⟩

/-- C1 counterexample: for this expression semantic validation raises and the
poison builder is returned, but the logged warning does not carry the
original expression — it names only the offending state value. -/
theorem when_warning_lacks_expression :
    when envThing "Thing kodi:kodi:familyroom changed from ONLINE to OFFLINE" 0
      = (.poison "when: 'ONLINE' is not a valid Thing status", 0)
    ∧ containsSubstr "when: 'ONLINE' is not a valid Thing status"
        "Thing kodi:kodi:familyroom changed from ONLINE to OFFLINE" = false :=
  ⟨by decide, by decide⟩

/-- C4 (the code evaluated at the failing input): the registry-existence
check compares itemRegistry.getItems(target) with a fresh array literal —
always false in JavaScript — so an Item expression whose target is in no
registry is NOT rejected with a semantic error: the real item builder is
returned.  For Member of, the group check's getItem throws a host exception
instead, re-raised as a generic failure, not the poison builder either. -/
theorem when_missing_item_not_rejected :
    getItem? envDemo (some "NonExistentItem") = none
    ∧ when envDemo "Item NonExistentItem changed" 0
        = (.strategy (.itemTrigger
            ⟨some "Item", some "NonExistentItem", some "changed", none, none⟩), 1)
    ∧ when envDemo "Member of NoGroup changed" 0 = (.internalError, 0) :=
  ⟨rfl, by decide, by decide⟩

/-- C5 (the code evaluated at the failing input): the received-command check
is inverted.  With an item whose command parser accepts ON, the expression is
rejected ('ON' reported as not a valid command); with an item whose command
parser accepts nothing, the same expression passes validation and yields the
real builder. -/
theorem when_command_check_inverted :
    itemSwitch.commandParses "ON" = true
    ∧ when envSwitch "Item Test_Switch_1 received command ON" 0
        = (.poison ("when: 'Item Test_Switch_1 received command ON' could not "
            ++ "be parsed because 'ON' is not a valid command for 'Test_Switch_1'"), 0)
    ∧ itemSwitchNoCmd.commandParses "ON" = false
    ∧ when envSwitchNoCmd "Item Test_Switch_1 received command ON" 0
        = (.strategy (.itemTrigger
            ⟨some "Item", some "Test_Switch_1", some "received command",
             none, some "ON"⟩), 1) :=
  ⟨rfl, by decide, rfl, by decide⟩

/-- C6 (the code evaluated at the failing input): the Thing-status check
reads the literal class member ThingStatus.old_state, which never exists, so
ANY given old or new state is rejected — the valid status ONLINE exactly as
the nonsense status BANANA — even though the thing is registered. -/
theorem when_thing_status_always_rejected :
    envThing.thingExists "kodi:kodi:familyroom" = true
    ∧ when envThing "Thing kodi:kodi:familyroom changed from ONLINE to OFFLINE" 0
        = (.poison "when: 'ONLINE' is not a valid Thing status", 0)
    ∧ when envThing "Thing kodi:kodi:familyroom changed from BANANA to OFFLINE" 0
        = (.poison "when: 'BANANA' is not a valid Thing status", 0) :=
  ⟨rfl, by decide, by decide⟩

/-- C8: parsing "Item gMotion_Sensors changed from ON to OFF" against a
registry item accepting ON and OFF yields one spec of type
core.ItemStateChangeTrigger whose configuration maps itemName to the item's
name, previousState to ON and state to OFF. -/
theorem when_item_changed_example :
    when envMotion "Item gMotion_Sensors changed from ON to OFF" 0
      = (.strategy (.itemTrigger
          ⟨some "Item", some "gMotion_Sensors", some "changed",
           some "ON", some "OFF"⟩), 1)
    ∧ applyBuilder envMotion
        (.itemTrigger ⟨some "Item", some "gMotion_Sensors", some "changed",
          some "ON", some "OFF"⟩)
        ⟨none, "", ""⟩ 1
      = .ok (⟨some [some ⟨"Item-gMotion_Sensors-changed-from-ON-to-OFFuu",
          "core.ItemStateChangeTrigger",
          [("itemName", CValue.str "gMotion_Sensors"),
           ("previousState", CValue.str "ON"),
           ("state", CValue.str "OFF")]⟩], "", ""⟩, 3) :=
  ⟨by decide, by decide⟩

/-- C9: a builder strategy returned by a successful parse only pushes its
trigger specs onto the triggers list of the object it is applied to
(creating the list when absent) and returns the object with its other
attributes unchanged; pushes append, so repeated applications accumulate
specs. -/
theorem when_strategy_only_appends (env : Env) (expr : String) (n0 : Nat)
    (b : Builder) (n1 : Nat) (h : when env expr n0 = (.strategy b, n1)) :
    (∀ func n, applyBuilder env b func n
        = (builderSpecs env b n).map (fun p => (add_triggers func p.1, p.2)))
    ∧ (∀ func ts, (add_triggers func ts).name = func.name
        ∧ (add_triggers func ts).description = func.description
        ∧ (add_triggers func ts).triggers.getD [] = func.triggers.getD [] ++ ts) :=
  ⟨fun func n => applyBuilder_eq_builderSpecs env b func n,
   fun func ts => ⟨add_triggers_name func ts, add_triggers_description func ts,
     add_triggers_triggers func ts⟩⟩

/-- Witness for C9 at the cron builder of a concrete parse, applied to an
object that already holds a trigger entry. -/
theorem when_strategy_only_appends_witness :
    when envDemo "Time cron 0 0 0 * * ?" 0
      = (.strategy (.cronTrigger
          ⟨some "Time", some "cron", some "0 0 0 * * ?", none, none⟩
          "Time_cron_0_0_0_u"), 1)
    ∧ applyBuilder envDemo
        (.cronTrigger ⟨some "Time", some "cron", some "0 0 0 * * ?", none, none⟩
          "Time_cron_0_0_0_u")
        ⟨some [none], "nm", "ds"⟩ 1
      = (builderSpecs envDemo
          (.cronTrigger ⟨some "Time", some "cron", some "0 0 0 * * ?", none, none⟩
            "Time_cron_0_0_0_u") 1).map
          (fun p => (add_triggers ⟨some [none], "nm", "ds"⟩ p.1, p.2))
    ∧ (add_triggers (⟨some [none], "nm", "ds"⟩ : Func) [none]).triggers.getD []
        = (⟨some [none], "nm", "ds"⟩ : Func).triggers.getD [] ++ [none] := by
  have h := when_strategy_only_appends envDemo "Time cron 0 0 0 * * ?" 0
    (.cronTrigger ⟨some "Time", some "cron", some "0 0 0 * * ?", none, none⟩
      "Time_cron_0_0_0_u") 1 (by decide)
  exact ⟨by decide, h.1 ⟨some [none], "nm", "ds"⟩ 1,
    (h.2 ⟨some [none], "nm", "ds"⟩ [none]).2.2⟩

/-- C2: for an expression parsed to the item-group builder (target_type
Member of or Descendent of) whose target resolves to a registry item, the
returned builder attaches exactly one spec per member name — getMembers()
for Member of, getAllMembers() for Descendent of — with the configurations
naming the members in order (one per distinct member name), and all
generated trigger ids are pairwise distinct, also across a second
application for the identical expression, whenever the uuid stream is
injective, of fixed length and underscore-free on the indices consumed. -/
theorem when_group_fanout (env : Env) (expr : String) (n0 n1 nA : Nat)
    (st : ParseState) (item : RegItem)
    (h : when env expr n0 = (.strategy (.itemTrigger st), n1))
    (htt : st.target_type = some "Member of" ∨ st.target_type = some "Descendent of")
    (hitem : getItem? env st.trigger_target = some item)
    (hnodup : (groupMembers st item).Nodup)
    (hinj : ∀ i, i < nA + 4 * (groupMembers st item).length →
      ∀ j, j < nA + 4 * (groupMembers st item).length →
        i ≠ j → env.uuids i ≠ env.uuids j)
    (hlen : ∀ i, i < nA + 4 * (groupMembers st item).length →
      ∀ j, j < nA + 4 * (groupMembers st item).length →
        (env.uuids i).data.length = (env.uuids j).data.length)
    (hchr : ∀ i, i < nA + 4 * (groupMembers st item).length →
      ∀ c ∈ (env.uuids i).data, c ≠ '_') :
    (∀ func, applyBuilder env (.itemTrigger st) func nA
      = .ok (add_triggers func
              ((memberSpecs env st (groupMembers st item) nA).map some),
             nA + 2 * (groupMembers st item).length))
    ∧ (memberSpecs env st (groupMembers st item) nA).length
        = (groupMembers st item).length
    ∧ (memberSpecs env st (groupMembers st item) nA).map
        (fun t => t.configuration.lookup "itemName")
      = (groupMembers st item).map (fun m => some (CValue.str m))
    ∧ ((memberSpecs env st (groupMembers st item) nA).map
        (fun t => t.configuration.lookup "itemName")).Nodup
    ∧ ((memberSpecs env st (groupMembers st item) nA
        ++ memberSpecs env st (groupMembers st item)
            (nA + 2 * (groupMembers st item).length)).map (fun t => t.id)).Nodup := by
  refine ⟨?_, memberSpecs_length env st _ nA, memberSpecs_itemNames env st _ nA, ?_, ?_⟩
  · intro func
    rw [applyBuilder_eq_builderSpecs]
    simp only [builderSpecs]
    rw [hitem]
    rfl
  · rw [memberSpecs_itemNames]
    refine List.Nodup.map ?_ hnodup
    intro a b hab
    simpa using hab
  · rw [← memberSpecs_append]
    apply memberSpecs_ids_nodup env st (nA + 4 * (groupMembers st item).length)
      hinj hlen hchr
    simp only [List.length_append]
    omega

/-- Witness for C2 at a two-member group with nine distinct uuids. -/
theorem when_group_fanout_witness :
    when envGroup "Member of gContact_Sensors changed" 0
      = (.strategy (.itemTrigger
          ⟨some "Member of", some "gContact_Sensors", some "changed",
           none, none⟩), 1)
    ∧ applyBuilder envGroup
        (.itemTrigger ⟨some "Member of", some "gContact_Sensors", some "changed",
          none, none⟩)
        ⟨none, "", ""⟩ 1
      = .ok (add_triggers ⟨none, "", ""⟩
              ((memberSpecs envGroup
                  ⟨some "Member of", some "gContact_Sensors", some "changed",
                   none, none⟩
                  (groupMembers
                    ⟨some "Member of", some "gContact_Sensors", some "changed",
                     none, none⟩ itemGroup) 1).map some),
             1 + 2 * (groupMembers
                  ⟨some "Member of", some "gContact_Sensors", some "changed",
                   none, none⟩ itemGroup).length)
    ∧ ((memberSpecs envGroup
          ⟨some "Member of", some "gContact_Sensors", some "changed", none, none⟩
          (groupMembers
            ⟨some "Member of", some "gContact_Sensors", some "changed",
             none, none⟩ itemGroup) 1
        ++ memberSpecs envGroup
          ⟨some "Member of", some "gContact_Sensors", some "changed", none, none⟩
          (groupMembers
            ⟨some "Member of", some "gContact_Sensors", some "changed",
             none, none⟩ itemGroup)
          (1 + 2 * (groupMembers
              ⟨some "Member of", some "gContact_Sensors", some "changed",
               none, none⟩ itemGroup).length)).map (fun t => t.id)).Nodup := by
  have h := when_group_fanout envGroup "Member of gContact_Sensors changed" 0 1 1
    ⟨some "Member of", some "gContact_Sensors", some "changed", none, none⟩
    itemGroup (by decide) (Or.inl rfl) rfl (by decide) (by decide) (by decide)
    (by decide)
  exact ⟨by decide, h.1 ⟨none, "", ""⟩, h.2.2.2.2⟩

end OhWhen
